import Mathlib

/-!
Verification development for the DCA dashboard data pipeline (src/app.py).

The file shallowly embeds the three pieces of non-trivial logic of the
application:

* `load_data` — the spreadsheet loader (app.py lines 21-47): dropna, weekend
  removal, weekly Friday-anchored resampling with per-bucket means, melt to
  long format and sort by (date, commodity).
* the price aggregator inside `update_graph_and_table` (app.py lines
  194-250): date/commodity filtering, the optional rebase-to-100
  normalization loop, and the trailing 5-point percentage-change table with
  its pivot and date-stamped headers.
* the rainfall scraper helpers `fetch_rainfall_data` (post-JSON-parse part,
  app.py lines 82-97) and `extract_data` (lines 100-109), including the
  regex field extraction and the state-name normalization lambda.

Conventions of the embedding:

* Calendar dates are modelled as `Nat` — the number of days since
  2024-01-01, which was a Monday; hence `d % 7 = 0` means Monday and
  `d % 7` values 5 and 6 are Saturday and Sunday, matching
  `pandas.Timestamp.weekday`.
* Prices are `Option ℚ`: `none` stands for a value that is not an ordinary
  finite number (NaN produced by pandas, or an infinity produced by a
  division by zero).  Real Python floats are abstracted by exact rationals.
* Fallible Python code (expressions that can raise) is modelled with
  `Option`: a `none` result stands for a raised exception.
-/

set_option maxRecDepth 4000

/-! ### Generic character-list helpers (Python string operations) -/

/-- `startsWithL pat s` is true when `pat` is an initial segment of `s`. -/
def startsWithL : List Char → List Char → Bool
  | [], _ => true
  | _ :: _, [] => false
  | p :: ps, c :: cs => p == c && startsWithL ps cs

/-- `endsWithL pat s` is true when `pat` is a final segment of `s`. -/
def endsWithL (pat s : List Char) : Bool :=
  startsWithL pat.reverse s.reverse

/-- `containsL pat s` is true when `pat` occurs as a contiguous substring of
`s` (Python `pat in s`). -/
def containsL (pat : List Char) : List Char → Bool
  | [] => startsWithL pat []
  | c :: cs => startsWithL pat (c :: cs) || containsL pat cs

/-- Worker for `replaceL`; the fuel argument (an upper bound on the number
of steps, initially the length of the string) makes the recursion
structural. -/
def replaceGo (pat rep : List Char) : Nat → List Char → List Char
  | 0, s => s
  | fuel + 1, s =>
    match s with
    | [] => []
    | c :: cs =>
      if startsWithL pat (c :: cs) then
        rep ++ replaceGo pat rep fuel ((c :: cs).drop pat.length)
      else
        c :: replaceGo pat rep fuel cs

/-- Python `str.replace`: replace every non-overlapping occurrence of `pat`
(non-empty) by `rep`, scanning left to right. -/
def replaceL (pat rep s : List Char) : List Char :=
  if pat = [] then s else replaceGo pat rep s.length s

/-- Python `str.title` restricted to ASCII-style casing: a letter that
follows a non-letter is uppercased, a letter that follows a letter is
lowercased, other characters are kept.  The boolean argument records
whether the previous character was a letter. -/
def titleL : Bool → List Char → List Char
  | _, [] => []
  | prevAlpha, c :: cs =>
    if c.isAlpha then
      (if prevAlpha then c.toLower else c.toUpper) :: titleL true cs
    else
      c :: titleL false cs

/-- Python `str.strip`: remove leading and trailing whitespace. -/
def pyStrip (s : String) : String :=
  ⟨((s.data.dropWhile Char.isWhitespace).reverse.dropWhile Char.isWhitespace).reverse⟩

/-- Strict lexicographic comparison of character lists, the order Python and
pandas use to compare `str` values. -/
def charListLt : List Char → List Char → Bool
  | [], [] => false
  | [], _ :: _ => true
  | _ :: _, [] => false
  | a :: as, b :: bs => if a < b then true else if b < a then false else charListLt as bs

/-! ### Calendar dates

`fmtDate` renders a day number (days since Monday 2024-01-01) in the
`%d-%m-%y` format used for the percentage-change table headers
(app.py line 234).  The civil-from-days conversion is the standard
era-based Gregorian algorithm, run entirely in `Nat` (all intermediate
values are nonnegative for day numbers at or after 1970). -/

/-- Gregorian (year, month, day) of a day number (days since 2024-01-01). -/
def civilFromDays (n : Nat) : Nat × Nat × Nat :=
  let z := n + 19723 + 719468
  let era := z / 146097
  let doe := z % 146097
  let yoe := (doe - doe / 1460 + doe / 36524 - doe / 146096) / 365
  let y := yoe + era * 400
  let doy := doe - (365 * yoe + yoe / 4 - yoe / 100)
  let mp := (5 * doy + 2) / 153
  let d := doy - (153 * mp + 2) / 5 + 1
  let m := if mp < 10 then mp + 3 else mp - 9
  (if m ≤ 2 then y + 1 else y, m, d)

/-- Zero-padded two-digit rendering of a natural number below 100. -/
def pad2 (n : Nat) : String :=
  if n < 10 then "0" ++ toString n else toString n

/-- `strftime` with format `%d-%m-%y` (app.py line 234). -/
def fmtDate (n : Nat) : String :=
  let c := civilFromDays n
  pad2 c.2.2 ++ "-" ++ pad2 c.2.1 ++ "-" ++ pad2 (c.1 % 100)

/-! ### Rounding

`DataFrame.round(2)` (app.py line 237) rounds to two decimals with the
IEEE round-half-to-even rule used by numpy. -/

/-- Floor of a rational as an integer, written with flooring integer
division so that it evaluates by reduction. -/
def ratFloor (q : ℚ) : Int :=
  Int.fdiv q.num (q.den : Int)

/-- Round-half-to-even of a rational to an integer.  The fractional part
`q - floor q` is compared against one half using only integer arithmetic on
the numerator and denominator, so the function evaluates by reduction. -/
def roundHalfEven (q : ℚ) : Int :=
  let f := ratFloor q
  let rnum := q.num - f * (q.den : Int)
  if 2 * rnum < (q.den : Int) then f
  else if (q.den : Int) < 2 * rnum then f + 1
  else if f % 2 = 0 then f else f + 1

/-- Round to two decimal places, half to even (`round(2)`). -/
def round2 (q : ℚ) : ℚ :=
  (roundHalfEven (q * 100) : ℚ) / 100

/-! ### The long-format price series and the query filter

`PriceRec` is one row of the long-format PriceSeries produced by
`load_data` and consumed by `update_graph_and_table`. -/

/-- One row of the long-format price table: date (days since 2024-01-01,
a Monday), commodity name, and price (`none` = NaN). -/
structure PriceRec where
  date : Nat
  commodity : String
  price : Option ℚ
deriving DecidableEq, Repr

/-- The common filter of `update_graph_and_table` (app.py lines 202-208):
keep rows whose commodity is selected and whose date lies in the inclusive
window. -/
def filterQuery (series : List PriceRec) (sel : List String) (startD endD : Nat) :
    List PriceRec :=
  series.filter fun r =>
    sel.contains r.commodity && decide (startD ≤ r.date) && decide (r.date ≤ endD)

/-- The pre-restricted frame `df_long_default` (app.py line 59): rows of the
series at or after the three-months-ago cutoff. -/
def df_long_default (series : List PriceRec) (threeMonthsAgo : Nat) : List PriceRec :=
  series.filter fun r => decide (threeMonthsAgo ≤ r.date)

/-! ### Normalization (app.py lines 210-217) -/

/-- One price divided by the starting price, times 100 (app.py line 215).
`none` operands are NaN; a zero starting price makes pandas produce
inf or NaN, both modelled as `none`. -/
def rebase (p s : Option ℚ) : Option ℚ :=
  match p, s with
  | some x, some y => if y = 0 then none else some (x / y * 100)
  | _, _ => none

/-- One iteration of the normalization loop (app.py lines 213-215): the
sub-series of one commodity, rebased to its first price.  When the
commodity has no rows in the filtered frame, `.iloc[0]` raises IndexError,
modelled by `none`. -/
def normalizeCommodity (filtered : List PriceRec) (c : String) :
    Option (List PriceRec) :=
  match filtered.filter (fun r => r.commodity == c) with
  | [] => none
  | r0 :: rest =>
    some ((r0 :: rest).map fun r => { r with price := rebase r.price r0.price })

/-- The normalization loop over the selected commodities (app.py lines
211-216), collecting the per-commodity frames; a raised exception in any
iteration aborts the whole callback. -/
def normLoop (filtered : List PriceRec) : List String → Option (List (List PriceRec))
  | [] => some []
  | c :: cs =>
    match normalizeCommodity filtered c with
    | none => none
    | some l => (normLoop filtered cs).map (l :: ·)

/-- The whole normalization step including the final `pd.concat`
(app.py line 217). -/
def normalizeStep (filtered : List PriceRec) (sel : List String) :
    Option (List PriceRec) :=
  (normLoop filtered sel).map List.flatten

/-! ### The percentage-change table (app.py lines 223-245) -/

/-- pandas `tail(5)`: the last five elements. -/
def tail5 (l : List α) : List α := l.drop (l.length - 5)

/-- pandas `tail(4)`: the last four elements. -/
def tail4 (l : List α) : List α := l.drop (l.length - 4)

/-- Forward-fill of NaN values, the `fill_method="pad"` pre-step of pandas
`pct_change` (leading NaN values stay NaN). -/
def ffill (prev : Option ℚ) : List (Option ℚ) → List (Option ℚ)
  | [] => []
  | none :: rest => prev :: ffill prev rest
  | some x :: rest => some x :: ffill (some x) rest

/-- One percentage change `(b - a) / a * 100`; NaN operands and the
non-finite results of a zero base are `none`. -/
def pctVal (a b : Option ℚ) : Option ℚ :=
  match a, b with
  | some x, some y => if x = 0 then none else some ((y - x) / x * 100)
  | _, _ => none

/-- Point-to-point changes of a list against its predecessor. -/
def pctAux (prev : Option ℚ) : List (Option ℚ) → List (Option ℚ)
  | [] => []
  | p :: rest => pctVal prev p :: pctAux p rest

/-- pandas `Series.pct_change() * 100` (app.py line 227): forward-fill,
then the change of each point against the previous one; the first entry is
always NaN. -/
def pct_change (ps : List (Option ℚ)) : List (Option ℚ) :=
  match ffill none ps with
  | [] => []
  | p :: rest => none :: pctAux p rest

/-- The per-commodity part of the table computation (app.py lines 223-228):
take the last 5 rows of the commodity, attach the percentage change of each
row, and keep the last 4 rows. -/
def commodityChanges (filtered : List PriceRec) (c : String) :
    List (Nat × Option ℚ) :=
  let t := tail5 (filtered.filter (fun r => r.commodity == c))
  tail4 ((t.map (fun r => r.date)).zip (pct_change (t.map (fun r => r.price))))

/-- The rows of one commodity surviving `dropna()` (app.py line 231):
date and change value of the non-NaN changes. -/
def retainedChanges (filtered : List PriceRec) (c : String) : List (Nat × ℚ) :=
  (commodityChanges filtered c).filterMap fun dc => dc.2.map (fun v => (dc.1, v))

/-- Dates of the retained changes of one commodity. -/
def retainedDates (filtered : List PriceRec) (c : String) : List Nat :=
  (retainedChanges filtered c).map fun p => p.1

/-- The concatenated long table of retained changes over the selected
commodities, in loop order (app.py lines 225-231): entries are
(commodity, date, change). -/
def retainedAll (filtered : List PriceRec) : List String → List (String × Nat × ℚ)
  | [] => []
  | c :: cs =>
    (retainedChanges filtered c).map (fun p => (c, p.1, p.2)) ++ retainedAll filtered cs

/-- Insert a date into a strictly sorted duplicate-free list, keeping it
strictly sorted and duplicate-free. -/
def insDD (x : Nat) : List Nat → List Nat
  | [] => [x]
  | y :: ys => if x < y then x :: y :: ys else if x = y then y :: ys else y :: insDD x ys

/-- Sorted distinct values of a list of dates; the column axis a pandas
`pivot` produces. -/
def sortDedupN (l : List Nat) : List Nat := l.foldr insDD []

/-- Insert a string into a lexicographically sorted duplicate-free list. -/
def insDS (x : String) : List String → List String
  | [] => [x]
  | y :: ys =>
    if charListLt x.data y.data then x :: y :: ys
    else if x = y then y :: ys
    else y :: insDS x ys

/-- Sorted distinct values of a list of strings; the index axis a pandas
`pivot` produces. -/
def sortDedupS (l : List String) : List String := l.foldr insDS []

/-- The cell of the pivot at one (commodity, date) position: the change
value when the long table has such a row, NaN otherwise. -/
def cellLookup (rows : List (String × Nat × ℚ)) (c : String) (d : Nat) : Option ℚ :=
  (rows.find? fun r => r.1 == c && r.2.1 == d).map fun r => r.2.2

/-- The fixed column labels of the table (app.py line 235). -/
def tableLabels : List String :=
  ["Three weeks ago", "Two weeks ago", "Previous week", "Latest week"]

/-- The percentage-change table of `update_graph_and_table` (app.py lines
230-245): the long change table is pivoted (commodity index and date
columns, both sorted ascending); a duplicate (commodity, date) pair makes
`pivot` raise, and assigning the four fixed labels raises unless the pivot
has exactly four date columns (both raised exceptions are `none`).  On
success the result is the list of header pairs (label, formatted date) and
the rows (commodity, four cell values rounded to two decimals). -/
def pctTable (filtered : List PriceRec) (sel : List String) :
    Option (List (String × String) × List (String × List (Option ℚ))) :=
  if ((retainedAll filtered sel).map fun r => (r.1, r.2.1)).Nodup then
    if (sortDedupN ((retainedAll filtered sel).map fun r => r.2.1)).length = 4 then
      some
        (tableLabels.zip
          ((sortDedupN ((retainedAll filtered sel).map fun r => r.2.1)).map fmtDate),
         (sortDedupS ((retainedAll filtered sel).map fun r => r.1)).map fun c =>
           (c, (sortDedupN ((retainedAll filtered sel).map fun r => r.2.1)).map fun d =>
             (cellLookup (retainedAll filtered sel) c d).map round2))
    else none
  else none

/-! ### The spreadsheet loader (app.py lines 21-47)

A workbook region is modelled, after the transpose of line 22, as a header
row of column names (the commodity names read at line 23) together with
data rows holding one calendar date and one optional price per column.
The loader drops rows with any missing value, drops weekend dates,
resamples to week-ending-Friday buckets averaging each column over each
bucket, melts to long format over the fixed 22-commodity vocabulary and
sorts by (date, commodity). -/

/-- One transposed data row: a date (days since 2024-01-01) and one
optional price per column (`none` = empty cell / NaN). -/
structure WideRow where
  date : Nat
  prices : List (Option ℚ)
deriving DecidableEq, Repr

/-- The fixed commodity vocabulary used as `value_vars` of the melt
(app.py lines 35-38). -/
def vocab : List String :=
  ["Rice", "Wheat", "Atta(wheat)", "Gram Dal", "Tur/Arhar Dal", "Urad Dal",
   "Moong Dal", "Masoor Dal", "Ground Nut Oil", "Mustard Oil", "Vanaspati",
   "Soya Oil", "Sunflower Oil", "Palm Oil", "Potato", "Onion", "Tomato",
   "Sugar", "Gur", "Milk", "Tea", "Salt"]

/-- The Friday ending the week of day `d`: the smallest day `≥ d` whose
weekday is Friday (`% 7 = 4`). -/
def fridayOn (d : Nat) : Nat := d + (11 - d % 7) % 7

/-- All week-ending Fridays from `fridayOn lo` to `fridayOn hi`, the bucket
axis of `resample("W-FRI")`. -/
def weekBuckets (lo hi : Nat) : List Nat :=
  (List.range ((fridayOn hi - fridayOn lo) / 7 + 1)).map fun k => fridayOn lo + 7 * k

/-- The bucket axis generated for a set of rows: Fridays from the week of
the earliest date to the week of the latest date; empty input produces an
empty frame. -/
def bucketList (rows : List WideRow) : List Nat :=
  match rows with
  | [] => []
  | r :: rs =>
    weekBuckets (((r :: rs).map (·.date)).foldl min r.date)
      (((r :: rs).map (·.date)).foldl max r.date)

/-- The rows falling into the week-ending-Friday bucket `b`. -/
def bucketRows (rows : List WideRow) (b : Nat) : List WideRow :=
  rows.filter fun w => fridayOn w.date == b

/-- The mean of column `j` over a bucket, with the pandas skip-NaN rule:
NaN when no non-NaN value exists in the bucket. -/
def colMean (ms : List WideRow) (j : Nat) : Option ℚ :=
  let vals := ms.filterMap fun w => w.prices.getD j none
  if vals.isEmpty then none else some (vals.sum / (vals.length : ℚ))

/-- `df.resample("W-FRI").mean()` (app.py line 31): one output row per
bucket of the axis, holding the per-column bucket means. -/
def resample (rows : List WideRow) (ncols : Nat) : List (Nat × List (Option ℚ)) :=
  (bucketList rows).map fun b =>
    (b, (List.range ncols).map (colMean (bucketRows rows b)))

/-- The dropna and weekend filters (app.py lines 28-30): drop any row with
a missing value in any column, then drop Saturday/Sunday dates. -/
def postFilter (rows : List WideRow) : List WideRow :=
  (rows.filter fun r => r.prices.all (·.isSome)).filter fun r => r.date % 7 < 5

/-- Insertion into a list sorted by the boolean relation `le`. -/
def insertLe (le : α → α → Bool) (x : α) : List α → List α
  | [] => [x]
  | y :: ys => if le x y then x :: y :: ys else y :: insertLe le x ys

/-- Insertion sort by the boolean relation `le`. -/
def sortBy (le : α → α → Bool) (l : List α) : List α := l.foldr (insertLe le) []

/-- The (date, commodity) sort key order of app.py line 44: ascending date,
ties broken by lexicographic commodity name. -/
def recLe (a b : PriceRec) : Bool :=
  if a.date < b.date then true
  else if b.date < a.date then false
  else !charListLt b.commodity.data a.commodity.data

/-- The loader `load_data` (app.py lines 21-47) on the transposed region:
`colNames` is the header of commodity names and `rows` the dated rows.  The
result is `none` when the region does not have the expected shape — a
ragged row, or one of the 22 melt names missing from the header
(`melt` raises a KeyError) — and otherwise the long-format series sorted
by (date, commodity). -/
def load_data (colNames : List String) (rows : List WideRow) :
    Option (List PriceRec) :=
  if rows.all (fun r => r.prices.length == colNames.length) &&
     vocab.all (colNames.contains ·) then
    some (sortBy recLe
      (vocab.flatMap fun name =>
        (resample (postFilter rows) colNames.length).map fun bp =>
          { date := bp.1, commodity := name,
            price := bp.2.getD (colNames.indexOf name) none }))
  else none

/-! ### The rainfall scraper (app.py lines 82-109)

The network fetch, the HTML parsing and the JSON repair are external
collaborators; the embedding starts from the parsed list of area objects
(each with `id`, `title` and `balloonText` string fields) and models the
loop of lines 83-92, the `extract_data` helper, and the state-name
normalization of line 95. -/

/-- Characters the regex class `[\d.]` accepts. -/
def isDigitDot (c : Char) : Bool := c.isDigit || c == '.'

/-- Characters the regex class `[-\d]` accepts. -/
def isDigitDash (c : Char) : Bool := c.isDigit || c == '-'

/-- Try to match, at the start of `s`, the literal `pre`, then a non-empty
greedy run of characters accepted by `ok`, then the literal `suf`; return
the captured run.  Because no `ok` character starts `suf` in any of the
three patterns of `extract_data`, the greedy run with backtracking of the
Python regex engine matches exactly the maximal run. -/
def matchAt (pre : List Char) (ok : Char → Bool) (suf : List Char)
    (s : List Char) : Option (List Char) :=
  if startsWithL pre s then
    let rest := s.drop pre.length
    let g := rest.takeWhile ok
    if !g.isEmpty && startsWithL suf (rest.drop g.length) then some g else none
  else none

/-- `re.search` for the patterns of `extract_data`: the leftmost position
where `matchAt` succeeds. -/
def searchG (pre : List Char) (ok : Char → Bool) (suf : List Char) :
    List Char → Option (List Char)
  | [] => matchAt pre ok suf []
  | c :: cs =>
    match matchAt pre ok suf (c :: cs) with
    | some g => some g
    | none => searchG pre ok suf cs

/-- The group of `re.search(r'Actual : ([\d.]+) mm', t)` (app.py line 101). -/
def searchActual (t : List Char) : Option (List Char) :=
  searchG "Actual : ".data isDigitDot " mm".data t

/-- The group of `re.search(r'Normal : ([\d.]+) mm', t)` (app.py line 102). -/
def searchNormal (t : List Char) : Option (List Char) :=
  searchG "Normal : ".data isDigitDot " mm".data t

/-- The group of `re.search(r'Departure : ([-\d]+)%', t)` (app.py line 103). -/
def searchDeparture (t : List Char) : Option (List Char) :=
  searchG "Departure : ".data isDigitDash "%".data t

/-- Numeric value of a non-empty digit run. -/
def digitsVal (ds : List Char) : Nat :=
  ds.foldl (fun a c => a * 10 + (c.toNat - 48)) 0

/-- Python `float(s)` on a string of digits and dots: defined exactly when
`s` has at most one dot and at least one digit; `none` models the
ValueError raised otherwise. -/
def parseFloatPy (s : List Char) : Option ℚ :=
  let ip := s.takeWhile Char.isDigit
  match s.drop ip.length with
  | [] => if ip.isEmpty then none else some (digitsVal ip : ℚ)
  | '.' :: fp =>
    if fp.all Char.isDigit && !(ip.isEmpty && fp.isEmpty) then
      some ((digitsVal ip : ℚ) + (digitsVal fp : ℚ) / ((10 : ℚ) ^ fp.length))
    else none
  | _ => none

/-- Python `int(s)` on a string of digits and minus signs: defined exactly
for an optional single leading minus followed by a non-empty digit run;
`none` models the ValueError raised otherwise. -/
def parseIntPy (s : List Char) : Option Int :=
  match s with
  | '-' :: ds =>
    if !ds.isEmpty && ds.all Char.isDigit then some (-(digitsVal ds : Int)) else none
  | ds =>
    if !ds.isEmpty && ds.all Char.isDigit then some (digitsVal ds : Int) else none

/-- The three numeric fields mined from a balloon text. -/
structure BalloonFields where
  actual : Option ℚ
  normal : Option ℚ
  deviation : Option Int
deriving DecidableEq, Repr

/-- A matched group must parse; an absent match degrades to a null field.
The outer `none` models the ValueError `float`/`int` raise on a matched
but ill-formed group. -/
def fieldVal (g : Option (List Char)) (p : List Char → Option β) :
    Option (Option β) :=
  match g with
  | none => some none
  | some s => (p s).map some

/-- `extract_data` (app.py lines 100-109): mine the three numeric fields
from the balloon text; `none` models a raised ValueError. -/
def extract_data (t : String) : Option BalloonFields :=
  match fieldVal (searchActual t.data) parseFloatPy,
        fieldVal (searchNormal t.data) parseFloatPy,
        fieldVal (searchDeparture t.data) parseIntPy with
  | some a, some n, some d => some ⟨a, n, d⟩
  | _, _, _ => none

/-- One parsed area object of the repaired JSON literal. -/
structure Area where
  id : String
  title : String
  balloonText : String
deriving DecidableEq, Repr

/-- One row of the scraped rainfall table. -/
structure RainfallRecord where
  state : String
  actual : Option ℚ
  normal : Option ℚ
  deviation : Option Int
deriving DecidableEq, Repr

/-- The state-name normalization lambda of app.py line 95: title-case,
remove every occurrence of " (Ut)", and — when the raw input contains
"Jammu" — replace "&" by "and". -/
def normalize_state (x : String) : String :=
  let stripped := replaceL " (Ut)".data [] (titleL false x.data)
  if containsL "Jammu".data x.data then
    ⟨replaceL "&".data "and".data stripped⟩
  else
    ⟨stripped⟩

/-- The record-building loop of `fetch_rainfall_data` (app.py lines 82-92):
keep areas whose id is truthy and not the literal string "null", strip the
title, and extract the balloon fields (an extraction error aborts the
fetch). -/
def buildRecords : List Area → Option (List RainfallRecord)
  | [] => some []
  | a :: rest =>
    if a.id ≠ "" ∧ a.id ≠ "null" then
      match extract_data a.balloonText with
      | none => none
      | some f =>
        (buildRecords rest).map
          (⟨pyStrip a.title, f.actual, f.normal, f.deviation⟩ :: ·)
    else buildRecords rest

/-- `fetch_rainfall_data` after the JSON literal has been parsed (app.py
lines 82-97).  When no record is retained, `pd.DataFrame([])` has no
columns at all, so the column access `df["state"]` of line 95 raises a
KeyError — modelled by `none`; otherwise every state name is normalized. -/
def fetch_rainfall_data (areas : List Area) : Option (List RainfallRecord) :=
  match buildRecords areas with
  | none => none
  | some [] => none
  | some rs => some (rs.map fun r => { r with state := normalize_state r.state })

/-! ### Claim-comparison definition and concrete data -/

/-- Modelled from the words of claim C8, for comparison with the code's
`normalize_state`: strip a trailing " (Ut)" suffix, title-case the string,
and for any name containing "Jammu" replace "&" with "and". -/
def C8_claimed_normalize (x : String) : String :=
  let s := x.data
  let stripped := if endsWithL " (Ut)".data s then s.take (s.length - 5) else s
  let titled := titleL false stripped
  if containsL "Jammu".data x.data then
    ⟨replaceL "&".data "and".data titled⟩
  else
    ⟨titled⟩

/-- Five weekly rows of one commodity with the prices of the
percentage-change example. -/
def C5rows : List PriceRec :=
  [⟨0, "Rice", some 100⟩, ⟨7, "Rice", some 110⟩, ⟨14, "Rice", some 99⟩,
   ⟨21, "Rice", some 105⟩, ⟨28, "Rice", some 115⟩]

/-- A filtered frame where the first selected commodity "A" has three rows
(hence only two retained changes) while "B" has five rows (four retained
changes): the pivot still has exactly four date columns. -/
def C3rows : List PriceRec :=
  [⟨14, "A", some 100⟩, ⟨21, "A", some 110⟩, ⟨28, "A", some 121⟩,
   ⟨0, "B", some 100⟩, ⟨7, "B", some 100⟩, ⟨14, "B", some 100⟩,
   ⟨21, "B", some 100⟩, ⟨28, "B", some 100⟩]

/-- A filtered frame where both selected commodities have the same five
weekly rows, hence the same four retained change dates. -/
def C3wit : List PriceRec :=
  [⟨0, "A", some 10⟩, ⟨7, "A", some 11⟩, ⟨14, "A", some 12⟩,
   ⟨21, "A", some 13⟩, ⟨28, "A", some 14⟩,
   ⟨0, "B", some 20⟩, ⟨7, "B", some 22⟩, ⟨14, "B", some 24⟩,
   ⟨21, "B", some 26⟩, ⟨28, "B", some 28⟩]

/-- A workbook region whose two (weekday, fully populated) rows are two
weeks apart, so the weekly resample has an empty middle bucket. -/
def C2gapRows : List WideRow :=
  [⟨0, List.replicate 22 (some 1)⟩, ⟨14, List.replicate 22 (some 1)⟩]

/-- A workbook region with a single fully populated Monday row. -/
def C2witRows : List WideRow :=
  [⟨0, List.replicate 22 (some 1)⟩]

/-- The series loaded from `C2witRows`. -/
def C2witOut : List PriceRec :=
  (load_data vocab C2witRows).getD []

/-- A workbook region with two fully populated weekday rows in one week. -/
def C6witRows : List WideRow :=
  [⟨0, List.replicate 22 (some 2)⟩, ⟨1, List.replicate 22 (some 4)⟩]

/-- The series loaded from `C6witRows`. -/
def C6witOut : List PriceRec :=
  (load_data vocab C6witRows).getD []

/-- A small long-format series used to instantiate the branch-equivalence
theorem. -/
def C9series : List PriceRec :=
  [⟨5, "Onion", some 1⟩, ⟨15, "Onion", some 2⟩, ⟨25, "Tomato", some 3⟩]

/-! ### Helper lemmas -/

lemma normalizeCommodity_eq_none {filtered : List PriceRec} {c : String}
    (hf : filtered.filter (fun r => r.commodity == c) = []) :
    normalizeCommodity filtered c = none := by
  unfold normalizeCommodity
  rw [hf]

lemma normLoop_eq_none (filtered : List PriceRec) (c : String) :
    ∀ sel : List String, c ∈ sel →
      filtered.filter (fun r => r.commodity == c) = [] →
      normLoop filtered sel = none
  | [], hc, _ => absurd hc (List.not_mem_nil c)
  | c' :: cs, hc, hf => by
    rcases List.mem_cons.mp hc with rfl | hmem
    · simp [normLoop, normalizeCommodity_eq_none hf]
    · unfold normLoop
      cases h : normalizeCommodity filtered c' with
      | none => rfl
      | some l => rw [normLoop_eq_none filtered c cs hmem hf]; rfl

lemma buildRecords_all_null :
    ∀ areas : List Area, (∀ a ∈ areas, a.id = "" ∨ a.id = "null") →
      buildRecords areas = some []
  | [], _ => rfl
  | a :: rest, h => by
    have ha := h a (List.mem_cons_self a rest)
    unfold buildRecords
    rw [if_neg]
    · exact buildRecords_all_null rest fun x hx => h x (List.mem_cons_of_mem a hx)
    · rcases ha with h1 | h1 <;> simp [h1]

lemma fieldVal_of_all (g : Option (List Char)) (p : List Char → Option β)
    (h : g.all (fun x => (p x).isSome) = true) : fieldVal g p = some (g.bind p) := by
  cases g with
  | none => rfl
  | some s =>
    simp only [Option.all] at h
    obtain ⟨v, hv⟩ := Option.isSome_iff_exists.mp h
    simp [fieldVal, hv, Option.bind]

/-! ### C1 — normalization with a commodity that has no rows in the window -/

/-- C1 counterexample: with `normalize` on, selecting a commodity ("B")
that has zero rows in the filtered window does not silently omit it — the
whole normalization step raises (IndexError at `.iloc[0]`), while the same
query without "B" succeeds. -/
theorem C1_counterexample :
    normalizeStep [⟨0, "A", some 5⟩] ["A", "B"] = none ∧
    normalizeStep [⟨0, "A", some 5⟩] ["A"] = some [⟨0, "A", some 100⟩] := by
  with_unfolding_all decide

/-- C1 amended: any selected commodity with zero rows in the filtered
window makes the normalization step raise an error (IndexError reading its
first price); it is not silently omitted. -/
theorem C1_empty_commodity_errors (filtered : List PriceRec) (sel : List String)
    (c : String) (hc : c ∈ sel)
    (hf : filtered.filter (fun r => r.commodity == c) = []) :
    normalizeStep filtered sel = none := by
  unfold normalizeStep
  rw [normLoop_eq_none filtered c sel hc hf]
  rfl

/-- C1 witness. -/
theorem C1_witness :
    normalizeStep [⟨0, "A", some 5⟩] ["A", "B"] = none :=
  C1_empty_commodity_errors [⟨0, "A", some 5⟩] ["A", "B"] "B" (by decide) (by decide)

/-! ### C4 — the first normalized point -/

/-- C4 counterexample: a commodity whose first price in the window is NaN
(such rows survive loading when a resample bucket is empty) has a NaN, not
100.0, first normalized point. -/
theorem C4_counterexample :
    (normalizeCommodity [⟨0, "A", none⟩, ⟨7, "A", some 50⟩] "A").bind
        (fun l => l.head?.map fun r => r.price) = some none ∧
    some (none : Option ℚ) ≠ some (some (100 : ℚ)) := by
  with_unfolding_all decide

/-- C4 amended: whenever the first price of the commodity in the filtered
window is an ordinary non-missing, nonzero number, the first point of the
normalized sub-series equals exactly 100. -/
theorem C4_first_point_100 (filtered : List PriceRec) (c : String)
    (r0 : PriceRec) (rest : List PriceRec) (s : ℚ)
    (hf : filtered.filter (fun r => r.commodity == c) = r0 :: rest)
    (hp : r0.price = some s) (hs : s ≠ 0) :
    (normalizeCommodity filtered c).bind
      (fun l => l.head?.map fun r => r.price) = some (some 100) := by
  unfold normalizeCommodity
  rw [hf]
  simp [hp, rebase, if_neg hs, div_self hs]

/-- C4 witness. -/
theorem C4_witness :
    (normalizeCommodity [⟨0, "A", some 50⟩, ⟨7, "A", some 60⟩] "A").bind
      (fun l => l.head?.map fun r => r.price) = some (some 100) :=
  C4_first_point_100 [⟨0, "A", some 50⟩, ⟨7, "A", some 60⟩] "A"
    ⟨0, "A", some 50⟩ [⟨7, "A", some 60⟩] 50 (by decide) rfl (by norm_num)

/-! ### C9 — equivalence of the two filter branches -/

/-- C9: when the start of the window is at or after the three-months-ago
cutoff, filtering the pre-restricted frame `df_long_default` gives exactly
the same rows as filtering the full series. -/
theorem C9_branch_equivalence (series : List PriceRec) (sel : List String)
    (t s e : Nat) (h : t ≤ s) :
    filterQuery (df_long_default series t) sel s e = filterQuery series sel s e := by
  unfold filterQuery df_long_default
  rw [List.filter_filter]
  apply List.filter_congr
  intro a _
  cases hc : sel.contains a.commodity
  · simp
  · by_cases hs : s ≤ a.date
    · have ht : t ≤ a.date := le_trans h hs
      simp [hs, ht]
    · simp [hs]

/-- C9 witness. -/
theorem C9_witness :
    filterQuery (df_long_default C9series 10) ["Onion"] 12 20 =
      filterQuery C9series ["Onion"] 12 20 :=
  C9_branch_equivalence C9series ["Onion"] 10 12 20 (by decide)

/-! ### C10 — fetch with no retained area -/

/-- C10: when every parsed area has an empty or "null" id, the fetch does
not return an empty record set — it fails (KeyError on the column-less
empty frame at the state-normalization step). -/
theorem C10_all_null_errors (areas : List Area)
    (h : ∀ a ∈ areas, a.id = "" ∨ a.id = "null") :
    fetch_rainfall_data areas = none := by
  unfold fetch_rainfall_data
  rw [buildRecords_all_null areas h]

/-- C10 witness. -/
theorem C10_witness :
    fetch_rainfall_data [⟨"", "X", "b"⟩, ⟨"null", "Y", "b"⟩] = none :=
  C10_all_null_errors [⟨"", "X", "b"⟩, ⟨"null", "Y", "b"⟩] (by decide)

/-! ### C7 — balloon-text field extraction -/

/-- C7 counterexample: `extract_data` can raise — on this text the
departure pattern matches the group "-", and `int("-")` raises ValueError,
so extraction does not degrade to a null field. -/
theorem C7_counterexample :
    extract_data "Departure : -%" = none := by
  decide

/-- C7 amended: whenever every matched numeric group is a well-formed
numeral, extraction never raises: each field whose pattern does not match
yields null and each matching field yields its parsed numeric value. -/
theorem C7_fields_or_null (t : String)
    (ha : (searchActual t.data).all (fun g => (parseFloatPy g).isSome) = true)
    (hn : (searchNormal t.data).all (fun g => (parseFloatPy g).isSome) = true)
    (hd : (searchDeparture t.data).all (fun g => (parseIntPy g).isSome) = true) :
    extract_data t =
      some ⟨(searchActual t.data).bind parseFloatPy,
            (searchNormal t.data).bind parseFloatPy,
            (searchDeparture t.data).bind parseIntPy⟩ := by
  unfold extract_data
  rw [fieldVal_of_all _ _ ha, fieldVal_of_all _ _ hn, fieldVal_of_all _ _ hd]

/-- C7 witness: a text with a missing Normal field and well-formed Actual
and Departure fields. -/
theorem C7_witness :
    extract_data "Actual : 10.5 mm Departure : -12%" =
      some ⟨some (21 / 2), none, some (-12)⟩ := by
  have h := C7_fields_or_null "Actual : 10.5 mm Departure : -12%"
    (by decide) (by decide) (by decide)
  exact h.trans (by with_unfolding_all decide)

/-! ### C8 — state-name normalization -/

/-- C8 counterexample: on "foo (ut) bar" the code (title-case first, then
remove every occurrence of " (Ut)") disagrees with the claim (strip only a
trailing " (Ut)" suffix, then title-case). -/
theorem C8_counterexample :
    normalize_state "foo (ut) bar" ≠ C8_claimed_normalize "foo (ut) bar" := by
  decide

/-- C8 amended: the lambda title-cases first and then removes every
occurrence of " (Ut)" (not only a trailing suffix), replacing "&" by "and"
when the raw input contains "Jammu"; in particular
"Jammu & Kashmir (Ut)" normalizes to "Jammu and Kashmir". -/
theorem C8_normalization :
    normalize_state "Jammu & Kashmir (Ut)" = "Jammu and Kashmir" ∧
    normalize_state "foo (ut) bar" = "Foo Bar" := by
  decide

/-! ### Membership lemmas for the loader -/

lemma mem_insertLe {le : α → α → Bool} {x a : α} :
    ∀ {l : List α}, a ∈ insertLe le x l → a = x ∨ a ∈ l
  | [], h => by simpa [insertLe] using h
  | y :: ys, h => by
    unfold insertLe at h
    split at h
    · rcases List.mem_cons.mp h with h | h
      · exact Or.inl h
      · exact Or.inr h
    · rcases List.mem_cons.mp h with h | h
      · exact Or.inr (h ▸ List.mem_cons_self y ys)
      · rcases mem_insertLe h with h' | h'
        · exact Or.inl h'
        · exact Or.inr (List.mem_cons_of_mem y h')

lemma mem_sortBy {le : α → α → Bool} {a : α} :
    ∀ {l : List α}, a ∈ sortBy le l → a ∈ l
  | [], h => h
  | b :: l, h => by
    rcases mem_insertLe (l := sortBy le l) h with h' | h'
    · exact h' ▸ List.mem_cons_self b l
    · exact List.mem_cons_of_mem b (mem_sortBy h')

lemma fridayOn_mod (d : Nat) : fridayOn d % 7 = 4 := by
  unfold fridayOn
  omega

lemma mem_bucketList_mod {rows : List WideRow} {b : Nat}
    (h : b ∈ bucketList rows) : b % 7 = 4 := by
  cases rows with
  | nil => simp [bucketList] at h
  | cons r rs =>
    unfold bucketList weekBuckets at h
    obtain ⟨k, _, rfl⟩ := List.mem_map.mp h
    have := fridayOn_mod (((r :: rs).map (·.date)).foldl min r.date)
    omega

lemma load_data_shape {colNames : List String} {rows : List WideRow}
    {out : List PriceRec} (h : load_data colNames rows = some out) :
    (rows.all (fun r => r.prices.length == colNames.length) &&
      vocab.all (colNames.contains ·)) = true ∧
    out = sortBy recLe
      (vocab.flatMap fun name =>
        (resample (postFilter rows) colNames.length).map fun bp =>
          { date := bp.1, commodity := name,
            price := bp.2.getD (colNames.indexOf name) none }) := by
  unfold load_data at h
  split at h
  · exact ⟨by assumption, (Option.some.inj h).symm⟩
  · exact absurd h (by simp)

/-! ### C6 — no weekend dates in the loaded series -/

/-- C6: every row of the series produced by `load_data` has a date whose
weekday is neither Saturday nor Sunday (all output dates are the Fridays of
the resample buckets). -/
theorem C6_no_weekend (colNames : List String) (rows : List WideRow)
    (out : List PriceRec) (h : load_data colNames rows = some out) :
    ∀ r ∈ out, ¬(r.date % 7 = 5 ∨ r.date % 7 = 6) := by
  intro r hr
  obtain ⟨_, hout⟩ := load_data_shape h
  rw [hout] at hr
  obtain ⟨name, hname, hre⟩ := List.mem_flatMap.mp (mem_sortBy hr)
  obtain ⟨bp, hbp, rfl⟩ := List.mem_map.mp hre
  unfold resample at hbp
  obtain ⟨b, hb, rfl⟩ := List.mem_map.mp hbp
  have hmod := mem_bucketList_mod hb
  simp only
  omega

/-- C6 witness. -/
theorem C6_witness :
    ¬((PriceRec.mk 4 "Rice" (some 3)).date % 7 = 5 ∨
      (PriceRec.mk 4 "Rice" (some 3)).date % 7 = 6) :=
  C6_no_weekend vocab C6witRows C6witOut (by with_unfolding_all decide)
    ⟨4, "Rice", some 3⟩ (by with_unfolding_all decide)

/-! ### C2 — NaN prices and the resample -/

lemma getD_map_range {f : Nat → α} {n j : Nat} (hj : j < n) (d : α) :
    ((List.range n).map f).getD j d = f j := by
  have hj2 : j < ((List.range n).map f).length := by simpa using hj
  rw [List.getD_eq_getElem _ _ hj2, List.getElem_map, List.getElem_range]

/-- C2 amended: no NaN price survives loading provided every weekly bucket
of the resample axis contains at least one surviving (fully populated,
weekday) row; the dropna step alone does not guarantee this, because the
resample reintroduces NaN means for empty buckets. -/
theorem C2_no_nan_if_buckets_full (colNames : List String) (rows : List WideRow)
    (out : List PriceRec) (h : load_data colNames rows = some out)
    (hfull : ∀ b ∈ bucketList (postFilter rows),
      bucketRows (postFilter rows) b ≠ []) :
    ∀ r ∈ out, r.price.isSome = true := by
  intro r hr
  obtain ⟨hcond, hout⟩ := load_data_shape h
  rw [hout] at hr
  obtain ⟨name, hname, hre⟩ := List.mem_flatMap.mp (mem_sortBy hr)
  obtain ⟨bp, hbp, rfl⟩ := List.mem_map.mp hre
  unfold resample at hbp
  obtain ⟨b, hb, rfl⟩ := List.mem_map.mp hbp
  rw [Bool.and_eq_true] at hcond
  obtain ⟨hshape, hvocab⟩ := hcond
  have hnamecol : name ∈ colNames := by
    have hcont := List.all_eq_true.mp hvocab name hname
    simpa using hcont
  have hj : colNames.indexOf name < colNames.length :=
    List.indexOf_lt_length.mpr hnamecol
  simp only
  rw [getD_map_range hj]
  have hne := hfull b hb
  obtain ⟨m, hm⟩ := List.exists_mem_of_ne_nil _ hne
  have hmpf : m ∈ postFilter rows := List.mem_of_mem_filter hm
  have hparts := List.mem_filter.mp hmpf
  have hinner := List.mem_filter.mp hparts.1
  have hmrows : m ∈ rows := hinner.1
  have hall : m.prices.all (·.isSome) = true := hinner.2
  have hlen : m.prices.length = colNames.length := by
    have hb2 := List.all_eq_true.mp hshape m hmrows
    simpa using hb2
  have hjm : colNames.indexOf name < m.prices.length := hlen ▸ hj
  have hsome : (m.prices.getD (colNames.indexOf name) none).isSome = true := by
    rw [List.getD_eq_getElem _ _ hjm]
    exact List.all_eq_true.mp hall _ (List.getElem_mem hjm)
  obtain ⟨v, hv⟩ := Option.isSome_iff_exists.mp hsome
  have hvin : v ∈ (bucketRows (postFilter rows) b).filterMap
      (fun w => w.prices.getD (colNames.indexOf name) none) :=
    List.mem_filterMap.mpr ⟨m, hm, hv⟩
  unfold colMean
  rw [if_neg]
  · simp
  · simp only [List.isEmpty_iff]
    exact List.ne_nil_of_mem hvin

/-- C2 counterexample: a fully populated workbook whose two weekday rows
are two weeks apart is accepted, yet its loaded series contains NaN prices
— the weekly resample produces a row of empty-bucket NaN means for the
middle week, so gaps do survive loading. -/
theorem C2_counterexample :
    (load_data vocab C2gapRows).map (fun l => l.any fun r => r.price.isNone) =
      some true := by
  with_unfolding_all decide

/-- C2 witness. -/
theorem C2_witness :
    (PriceRec.mk 4 "Rice" (some 1)).price.isSome = true :=
  C2_no_nan_if_buckets_full vocab C2witRows C2witOut (by with_unfolding_all decide)
    (by decide) ⟨4, "Rice", some 1⟩ (by with_unfolding_all decide)

/-! ### C5 — the four emitted percentage changes -/

/-- C5: for any commodity whose last 5 filtered prices are
[100, 110, 99, 105, 115] the aggregator retains exactly the four changes
10.0, -10.0, 6.06, 9.52 (after rounding to two decimals) — the first
(null) change is dropped and the last four kept; and on a concrete
five-row series the full table carries them labeled oldest to newest as
"Three weeks ago", "Two weeks ago", "Previous week", "Latest week". -/
theorem C5_pct_changes :
    (∀ (filtered : List PriceRec) (c : String),
      (tail5 (filtered.filter fun r => r.commodity == c)).map (fun r => r.price) =
        [some 100, some 110, some 99, some 105, some 115] →
      (retainedChanges filtered c).map (fun p => round2 p.2) =
        [10, -10, 6.06, 9.52]) ∧
    pctTable C5rows ["Rice"] =
      some ([("Three weeks ago", "08-01-24"), ("Two weeks ago", "15-01-24"),
             ("Previous week", "22-01-24"), ("Latest week", "29-01-24")],
            [("Rice", [some 10, some (-10), some 6.06, some 9.52])]) := by
  constructor
  · intro filtered c h
    unfold retainedChanges commodityChanges
    generalize hl : tail5 (filtered.filter fun r => r.commodity == c) = l at h ⊢
    rcases l with _ | ⟨a, _ | ⟨b, _ | ⟨c2, _ | ⟨d, _ | ⟨e, _ | ⟨x, l⟩⟩⟩⟩⟩⟩ <;>
      simp_all [tail4, pct_change, ffill, pctAux, pctVal]
    refine ⟨?_, ?_, ?_, ?_⟩ <;> with_unfolding_all decide
  · with_unfolding_all decide

/-- C5 witness. -/
theorem C5_witness :
    (retainedChanges C5rows "Rice").map (fun p => round2 p.2) =
      [10, -10, 6.06, 9.52] :=
  C5_pct_changes.1 C5rows "Rice" (by decide)

/-! ### C3 — the shared date header of the table -/

lemma sortDedupN_pairwise_self {ds : List Nat} (h : ds.Pairwise (· < ·)) :
    sortDedupN ds = ds := by
  induction ds with
  | nil => rfl
  | cons d ds ih =>
    have hd := List.pairwise_cons.mp h
    show insDD d (sortDedupN ds) = d :: ds
    rw [ih hd.2]
    cases ds with
    | nil => rfl
    | cons e es =>
      have he : d < e := hd.1 e (List.mem_cons_self e es)
      simp [insDD, he]

lemma insDD_mem {x : Nat} : ∀ {ds : List Nat}, x ∈ ds → ds.Pairwise (· < ·) →
    insDD x ds = ds
  | [], hx, _ => absurd hx (List.not_mem_nil x)
  | y :: ys, hx, h => by
    have hp := List.pairwise_cons.mp h
    rcases List.mem_cons.mp hx with rfl | hm
    · simp [insDD, lt_irrefl]
    · have hyx : y < x := hp.1 x hm
      have h1 : ¬x < y := by omega
      have h2 : ¬x = y := by omega
      simp [insDD, h1, h2, insDD_mem hm hp.2]

lemma foldr_insDD_of_subset {ds : List Nat} (h : ds.Pairwise (· < ·)) :
    ∀ {l : List Nat}, (∀ x ∈ l, x ∈ ds) → l.foldr insDD ds = ds
  | [], _ => rfl
  | a :: l, hsub => by
    rw [List.foldr_cons,
      foldr_insDD_of_subset h (fun x hx => hsub x (List.mem_cons_of_mem a hx)),
      insDD_mem (hsub a (List.mem_cons_self a l)) h]

lemma sortDedupN_append (l1 l2 : List Nat) :
    sortDedupN (l1 ++ l2) = l1.foldr insDD (sortDedupN l2) := by
  simp [sortDedupN, List.foldr_append]

lemma retainedAll_map_dates (filtered : List PriceRec) (c : String) (cs : List String) :
    (retainedAll filtered (c :: cs)).map (fun r => r.2.1) =
      retainedDates filtered c ++ (retainedAll filtered cs).map (fun r => r.2.1) := by
  simp [retainedAll, retainedDates, List.map_map]

lemma colDates_retainedAll (filtered : List PriceRec) (ds : List Nat)
    (hpw : ds.Pairwise (· < ·)) :
    ∀ sel : List String, sel ≠ [] → (∀ c ∈ sel, retainedDates filtered c = ds) →
      sortDedupN ((retainedAll filtered sel).map fun r => r.2.1) = ds
  | [], h, _ => absurd rfl h
  | c :: cs, _, hds => by
    rw [retainedAll_map_dates, hds c (List.mem_cons_self c cs)]
    cases cs with
    | nil =>
      simp only [retainedAll, List.map_nil, List.append_nil]
      exact sortDedupN_pairwise_self hpw
    | cons c' cs' =>
      have hrec := colDates_retainedAll filtered ds hpw (c' :: cs') (by simp)
        (fun x hx => hds x (List.mem_cons_of_mem c hx))
      rw [sortDedupN_append, hrec]
      exact foldr_insDD_of_subset hpw (fun x hx => hx)

lemma retainedAll_map_pairs (filtered : List PriceRec) (c : String) (cs : List String) :
    (retainedAll filtered (c :: cs)).map (fun r => (r.1, r.2.1)) =
      (retainedDates filtered c).map (fun d => (c, d)) ++
        (retainedAll filtered cs).map (fun r => (r.1, r.2.1)) := by
  simp [retainedAll, retainedDates, List.map_map]

lemma pairs_fst_mem (filtered : List PriceRec) :
    ∀ (sel : List String) (x : String × Nat),
      x ∈ (retainedAll filtered sel).map (fun r => (r.1, r.2.1)) → x.1 ∈ sel
  | [], x, h => by simp [retainedAll] at h
  | c :: cs, x, h => by
    rw [retainedAll_map_pairs] at h
    rcases List.mem_append.mp h with h | h
    · obtain ⟨d, _, rfl⟩ := List.mem_map.mp h
      exact List.mem_cons_self c cs
    · exact List.mem_cons_of_mem c (pairs_fst_mem filtered cs x h)

lemma pairs_nodup (filtered : List PriceRec) (ds : List Nat)
    (hpw : ds.Pairwise (· < ·)) :
    ∀ sel : List String, sel.Nodup → (∀ c ∈ sel, retainedDates filtered c = ds) →
      ((retainedAll filtered sel).map fun r => (r.1, r.2.1)).Nodup
  | [], _, _ => by simp [retainedAll]
  | c :: cs, hnd, hds => by
    rw [retainedAll_map_pairs]
    have hnd' := List.nodup_cons.mp hnd
    rw [List.nodup_append]
    refine ⟨?_, pairs_nodup filtered ds hpw cs hnd'.2
      (fun x hx => hds x (List.mem_cons_of_mem c hx)), ?_⟩
    · rw [hds c (List.mem_cons_self c cs)]
      have hdsnd : ds.Nodup := hpw.imp Nat.ne_of_lt
      exact hdsnd.map (fun a b hab => by simpa using hab)
    · intro x hx1 hx2
      obtain ⟨d, _, rfl⟩ := List.mem_map.mp hx1
      exact hnd'.1 (pairs_fst_mem filtered cs (c, d) hx2)

/-- C3 counterexample: a query whose table is produced without error while
the first selected commodity has only two retained change points — the
four date headers come from the pivot column axis (the sorted distinct
dates of all selected commodities), not from the first commodity. -/
theorem C3_counterexample :
    (pctTable C3rows ["A", "B"]).map Prod.fst ≠
      some (tableLabels.zip ((retainedDates C3rows "A").map fmtDate)) ∧
    (pctTable C3rows ["A", "B"]).isSome = true := by
  with_unfolding_all decide

/-- C3 amended: the four date-labeled headers carry, in day-month-2digit-
year format, the sorted distinct dates of all selected commodities'
retained change points (the pivot column axis); when every selected
commodity has the same four strictly increasing change dates these
coincide with the first selected commodity's dates, which is the only case
in which the claimed "first commodity" reading is realized. -/
theorem C3_shared_header (filtered : List PriceRec) (c0 : String) (cs : List String)
    (ds : List Nat) (hnd : (c0 :: cs).Nodup)
    (hds : ∀ c ∈ c0 :: cs, retainedDates filtered c = ds)
    (hpw : ds.Pairwise (· < ·)) (hlen : ds.length = 4) :
    (pctTable filtered (c0 :: cs)).map Prod.fst =
      some (tableLabels.zip ((retainedDates filtered c0).map fmtDate)) := by
  have hcol := colDates_retainedAll filtered ds hpw (c0 :: cs) (by simp) hds
  have hnodup := pairs_nodup filtered ds hpw (c0 :: cs) hnd hds
  rw [hds c0 (List.mem_cons_self c0 cs)]
  unfold pctTable
  rw [hcol, if_pos hnodup, if_pos hlen]
  rfl

/-- C3 witness. -/
theorem C3_witness :
    (pctTable C3wit ["A", "B"]).map Prod.fst =
      some (tableLabels.zip ((retainedDates C3wit "A").map fmtDate)) :=
  C3_shared_header C3wit "A" ["B"] [7, 14, 21, 28] (by decide)
    (by with_unfolding_all decide) (by decide) (by decide)
